import Mathlib

/-!
Verification of `src/Visualisation/visualiser.c` (Francoise audio visualiser).

The C program is shallowly embedded as follows:
* `float`/`double` arithmetic is modelled exactly over `ℚ`; the C cast
  `(int)` is `truncToInt` (truncation toward zero).
* C strings are `List Char`; a received buffer is read up to its first
  NUL byte, as `strtok` would.
* `strtok(buf, ",")` token extraction is `strtokTokens`: maximal nonempty
  runs of non-`,` characters (leading delimiters skipped, consecutive
  delimiters collapsed, empty tokens never produced).
* `atof`/`atoi` are modelled on their decimal grammar (optional
  whitespace, optional sign, digits, for `atof` also fraction and
  exponent); they return `0` when no conversion can be performed.
  Hexadecimal floats and `inf`/`nan` forms of `strtod` are not modelled;
  no claim depends on them.
* Terminal output of `render_audio` is the `String` it writes to stdout,
  with the `clear_terminal` step (a shelled-out `clear`) omitted.
* `main`'s startup error handling and the body of its receive loop are
  embedded as functions from the syscall results to an effect trace.
-/

/-- The C cast `(int)` applied to a real quantity: truncation toward zero. -/
def truncToInt (q : ℚ) : ℤ := if 0 ≤ q then ⌊q⌋ else ⌈q⌉

/-- `#define MAX_RMS_FOR_BAR 0.4f` (the float `0.4f` modelled as the exact value `2/5`). -/
def MAX_RMS_FOR_BAR : ℚ := 2/5

/-- `#define BAR_WIDTH 40`. -/
def BAR_WIDTH : ℤ := 40

/-- `#define PITCH_MIN_HZ 100.0f`. -/
def PITCH_MIN_HZ : ℚ := 100

/-- `#define PITCH_MAX_HZ 1000.0f`. -/
def PITCH_MAX_HZ : ℚ := 1000

/-- `#define BAR_CHAR '.'`. -/
def BAR_CHAR : Char := '.'

/-- The NUL byte terminating a C string. -/
def NUL : Char := Char.ofNat 0

/-- The character classified by C `isspace` in the default locale. -/
def isSpaceC (c : Char) : Bool :=
  c = ' ' || c = '\t' || c = '\n' || c = Char.ofNat 11 || c = Char.ofNat 12 || c = '\r'

/-- An optional leading sign, as consumed by `atof`/`atoi`:
returns the sign factor and the remaining characters. -/
def readSign : List Char → ℤ × List Char
  | [] => (1, [])
  | c :: rest =>
    if c = '-' then (-1, rest)
    else if c = '+' then (1, rest)
    else (1, c :: rest)

/-- Accumulate a run of decimal digits: given the value and count read so far,
return the value of the run, how many digits it had, and the rest. -/
def readDigitsAux : List Char → ℕ → ℕ → ℕ × ℕ × List Char
  | [], v, k => (v, k, [])
  | c :: rest, v, k =>
    if c.isDigit then readDigitsAux rest (10 * v + (c.toNat - 48)) (k + 1)
    else (v, k, c :: rest)

/-- Read a maximal run of decimal digits from the front of the string. -/
def readDigits (s : List Char) : ℕ × ℕ × List Char := readDigitsAux s 0 0

/-- C `atoi`: skip whitespace, optional sign, maximal digit run; `0` when
no digits are present.  (Overflow does not arise for the values considered.) -/
def atoi (s : List Char) : ℤ :=
  let s1 := s.dropWhile isSpaceC
  let (sg, s2) := readSign s1
  let (v, _, _) := readDigits s2
  sg * (v : ℤ)

/-- The optional fractional part consumed by `atof`: when the next character
is `.`, read the digit run after it; otherwise nothing is consumed. -/
def readFrac : List Char → ℕ × ℕ × List Char
  | [] => (0, 0, [])
  | c :: rest => if c = '.' then readDigits rest else (0, 0, c :: rest)

/-- The optional exponent consumed by `atof`: an `e`/`E`, an optional sign
and a digit run; it counts only when at least one digit follows. -/
def readExp : List Char → ℤ
  | [] => 0
  | c :: rest =>
    if c = 'e' ∨ c = 'E' then
      let (esg, s5) := readSign rest
      let (ev, ek, _) := readDigits s5
      if ek = 0 then 0 else esg * (ev : ℤ)
    else 0

/-- C `atof` (decimal grammar of `strtod`): skip whitespace, optional sign,
integer digits, optional `.` and fraction digits, optional `e`/`E` exponent
(only when followed by at least one digit); returns `0` when neither integer
nor fraction digits are present. -/
def atof (s : List Char) : ℚ :=
  let s1 := s.dropWhile isSpaceC
  let (sg, s2) := readSign s1
  let (ip, ik, s3) := readDigits s2
  let (fp, fk, s4) := readFrac s3
  if ik = 0 ∧ fk = 0 then 0
  else (sg : ℚ) * ((ip : ℚ) + (fp : ℚ) / (10 : ℚ) ^ fk) * (10 : ℚ) ^ readExp s4

/-- Worker for `strtokTokens`: `cur` is the (reversed) token being built. -/
def tokensGo : List Char → List Char → List (List Char)
  | [], cur => if cur = [] then [] else [cur.reverse]
  | c :: rest, cur =>
    if c = ',' then
      if cur = [] then tokensGo rest [] else cur.reverse :: tokensGo rest []
    else tokensGo rest (c :: cur)

/-- The sequence of tokens successive `strtok(·, ",")` calls produce: maximal
nonempty runs of non-comma characters.  Leading delimiters are skipped and
consecutive delimiters collapse; `strtok` never yields an empty token. -/
def strtokTokens (s : List Char) : List (List Char) := tokensGo s []

/-- The bytes of the receive buffer up to the first NUL, i.e. the C string
`strtok` and the conversions actually see. -/
def cstring (s : List Char) : List Char := s.takeWhile (fun c => c ≠ NUL)

/-- Lines 121-131 of `main`, lifted over the token list: `rms_value` and
`pitch_value` start at `0.0f` / `0`; the first token (if any) is `atof`-ed
into `rms_value`, the second (if any) `atoi`-ed into `pitch_value`; later
tokens are never requested. -/
def parseTokens : List (List Char) → ℚ × ℤ
  | [] => (0, 0)
  | [t] => (atof t, 0)
  | t1 :: t2 :: _ => (atof t1, atoi t2)

/-- The whole parsing step of `main` applied to one datagram payload. -/
def parseDatagram (payload : List Char) : ℚ × ℤ :=
  parseTokens (strtokTokens (cstring payload))

/-- Line 40: `fminf(fmaxf(rms_value, 0.0f), MAX_RMS_FOR_BAR) / MAX_RMS_FOR_BAR`. -/
def scaled_rms (rms_value : ℚ) : ℚ :=
  min (max rms_value 0) MAX_RMS_FOR_BAR / MAX_RMS_FOR_BAR

/-- Line 41: `(int)(scaled_rms * BAR_WIDTH)`. -/
def rms_bar_length (rms_value : ℚ) : ℤ :=
  truncToInt (scaled_rms rms_value * (BAR_WIDTH : ℚ))

/-- Lines 52-56: `scaled_pitch` is `0.0f` unless `pitch_value > 0`, in which
case the pitch is clamped to `[PITCH_MIN_HZ, PITCH_MAX_HZ]` and normalised. -/
def scaled_pitch (pitch_value : ℤ) : ℚ :=
  if pitch_value > 0 then
    (min (max (pitch_value : ℚ) PITCH_MIN_HZ) PITCH_MAX_HZ - PITCH_MIN_HZ) /
      (PITCH_MAX_HZ - PITCH_MIN_HZ)
  else 0

/-- Line 57: `(int)(scaled_pitch * BAR_WIDTH)`. -/
def pitch_bar_length (pitch_value : ℤ) : ℤ :=
  truncToInt (scaled_pitch pitch_value * (BAR_WIDTH : ℚ))

/-- Line 65: the Hz figure printed after the pitch bar,
`pitch_value > 0 ? pitch_value : 0`. -/
def printed_pitch (pitch_value : ℤ) : ℤ :=
  if pitch_value > 0 then pitch_value else 0

/-- The two character loops that draw one bar: `len` iterations printing
`BAR_CHAR`, then `BAR_WIDTH - len` iterations printing a space (a C `for`
loop with a negative bound runs zero times, hence the `Int.toNat`s). -/
def barCols (len : ℤ) : List Char :=
  List.replicate len.toNat BAR_CHAR ++ List.replicate (BAR_WIDTH - len).toNat ' '

/-- Everything `render_audio` (lines 35-73) writes to stdout, in order, with
the `clear_terminal()` call omitted. -/
def render_audio (rms_value : ℚ) (pitch_value : ℤ) : String :=
  "---YOU ARE NOW CONNECTED TO FRANÇOISE---\n"
  ++ "RMS  : " ++ String.mk (barCols (rms_bar_length rms_value)) ++ "\n"
  ++ "Pitch: " ++ String.mk (barCols (pitch_bar_length pitch_value))
  ++ " " ++ toString (printed_pitch pitch_value) ++ " Hz\n"
  ++ String.mk (List.replicate (BAR_WIDTH + 7).toNat '-') ++ "\n"

/-- `EXIT_FAILURE`, the status passed to `exit` on both fatal paths. -/
def EXIT_FAILURE : ℤ := 1

/-- The externally visible effects of `main`'s startup code (lines 93-111):
the diagnostics written (via `perror`), whether `close(sockfd)` ran, whether
control reached the `while (1)` receive loop, and the `exit` status if the
process terminated. -/
structure StartupTrace where
  stderrMsgs : List String
  socketClosed : Bool
  enteredLoop : Bool
  exitCode : Option ℤ
deriving DecidableEq

/-- Lines 93-113 of `main` as a function of the two syscall outcomes: a
failed `socket` call is `perror`-ed and the process exits `EXIT_FAILURE`; a
failed `bind` is `perror`-ed, the socket is closed, and the process exits
`EXIT_FAILURE`; otherwise the receive loop is entered. -/
def mainStartup (socketOk : Bool) (bindOk : Bool) : StartupTrace :=
  if !socketOk then
    { stderrMsgs := ["socket creation failed"], socketClosed := false,
      enteredLoop := false, exitCode := some EXIT_FAILURE }
  else if !bindOk then
    { stderrMsgs := ["bind failed"], socketClosed := true,
      enteredLoop := false, exitCode := some EXIT_FAILURE }
  else
    { stderrMsgs := [], socketClosed := false, enteredLoop := true, exitCode := none }

/-- The externally visible effects of one iteration of the receive loop:
diagnostics written, the frame rendered to the terminal (if any), and
whether the loop goes on to the next `recvfrom`. -/
structure IterTrace where
  stderrMsgs : List String
  rendered : Option String
  continues : Bool
deriving DecidableEq

/-- Lines 115-139 of `main`, one iteration, as a function of the `recvfrom`
result `n` and the buffer contents: when `n > 0` the first `n` bytes are
NUL-terminated, parsed and rendered; when `n < 0` `perror` runs and the loop
continues; when `n = 0` nothing at all happens.  No branch leaves the loop. -/
def loopIteration (n : ℤ) (buf : List Char) : IterTrace :=
  if 0 < n then
    let lp := parseDatagram (buf.take n.toNat)
    { stderrMsgs := [], rendered := some (render_audio lp.1 lp.2), continues := true }
  else if n < 0 then
    { stderrMsgs := ["recvfrom error"], rendered := none, continues := true }
  else
    { stderrMsgs := [], rendered := none, continues := true }

lemma truncToInt_of_nonneg {q : ℚ} (h : 0 ≤ q) : truncToInt q = ⌊q⌋ := if_pos h

lemma scaled_rms_nonneg (v : ℚ) : 0 ≤ scaled_rms v := by
  unfold scaled_rms MAX_RMS_FOR_BAR
  have h1 : (0:ℚ) ≤ min (max v 0) (2/5) := le_min (le_max_right v 0) (by norm_num)
  positivity

lemma scaled_rms_le_one (v : ℚ) : scaled_rms v ≤ 1 := by
  unfold scaled_rms MAX_RMS_FOR_BAR
  rw [div_le_one (by norm_num)]
  exact min_le_right _ _

lemma rms_bar_length_bounds (v : ℚ) : 0 ≤ rms_bar_length v ∧ rms_bar_length v ≤ 40 := by
  have h0 : (0:ℚ) ≤ scaled_rms v * (BAR_WIDTH : ℚ) := by
    have := scaled_rms_nonneg v
    have : (0:ℚ) ≤ (BAR_WIDTH : ℚ) := by norm_num [BAR_WIDTH]
    positivity
  have h40 : scaled_rms v * (BAR_WIDTH : ℚ) ≤ 40 := by
    have h1 := scaled_rms_le_one v
    have h2 := scaled_rms_nonneg v
    have : (BAR_WIDTH : ℚ) = 40 := by norm_num [BAR_WIDTH]
    nlinarith
  unfold rms_bar_length
  rw [truncToInt_of_nonneg h0]
  constructor
  · exact Int.le_floor.mpr (by exact_mod_cast h0)
  · calc ⌊scaled_rms v * (BAR_WIDTH : ℚ)⌋ ≤ ⌊(40:ℚ)⌋ := Int.floor_le_floor h40
      _ = 40 := by norm_num

lemma scaled_pitch_nonneg (p : ℤ) : 0 ≤ scaled_pitch p := by
  unfold scaled_pitch PITCH_MIN_HZ PITCH_MAX_HZ
  split
  · have h1 : (100:ℚ) ≤ max (p:ℚ) 100 := le_max_right _ _
    have h2 : (100:ℚ) ≤ min (max (p:ℚ) 100) 1000 := le_min h1 (by norm_num)
    have : (0:ℚ) ≤ min (max (p:ℚ) 100) 1000 - 100 := by linarith
    positivity
  · exact le_refl 0

lemma scaled_pitch_le_one (p : ℤ) : scaled_pitch p ≤ 1 := by
  unfold scaled_pitch PITCH_MIN_HZ PITCH_MAX_HZ
  split
  · rw [div_le_one (by norm_num)]
    have : min (max (p:ℚ) 100) 1000 ≤ 1000 := min_le_right _ _
    linarith
  · norm_num

lemma pitch_bar_length_bounds (p : ℤ) : 0 ≤ pitch_bar_length p ∧ pitch_bar_length p ≤ 40 := by
  have h0 : (0:ℚ) ≤ scaled_pitch p * (BAR_WIDTH : ℚ) := by
    have h1 := scaled_pitch_nonneg p
    have h2 : (0:ℚ) ≤ (BAR_WIDTH : ℚ) := by norm_num [BAR_WIDTH]
    positivity
  have h40 : scaled_pitch p * (BAR_WIDTH : ℚ) ≤ 40 := by
    have h1 := scaled_pitch_le_one p
    have h2 := scaled_pitch_nonneg p
    have : (BAR_WIDTH : ℚ) = 40 := by norm_num [BAR_WIDTH]
    nlinarith
  unfold pitch_bar_length
  rw [truncToInt_of_nonneg h0]
  constructor
  · exact Int.le_floor.mpr (by exact_mod_cast h0)
  · calc ⌊scaled_pitch p * (BAR_WIDTH : ℚ)⌋ ≤ ⌊(40:ℚ)⌋ := Int.floor_le_floor h40
      _ = 40 := by norm_num

lemma barCols_split {len : ℤ} (h0 : 0 ≤ len) (h40 : len ≤ 40) :
    barCols len =
      List.replicate len.toNat BAR_CHAR ++ List.replicate (40 - len.toNat) ' ' := by
  unfold barCols BAR_WIDTH
  have h : ((40:ℤ) - len).toNat = 40 - len.toNat := by omega
  rw [h]

lemma digit_not_spaceC {c : Char} (h : c.isDigit = true) : isSpaceC c = false := by
  by_contra hs
  rw [Bool.not_eq_false] at hs
  simp only [isSpaceC, Bool.or_eq_true, decide_eq_true_eq] at hs
  rcases hs with ((((rfl | rfl) | rfl) | rfl) | rfl) | rfl <;> simp [Char.isDigit] at h

lemma digit_ne_special {c : Char} (h : c.isDigit = true) :
    c ≠ '-' ∧ c ≠ '+' ∧ c ≠ '.' ∧ c ≠ ',' := by
  refine ⟨?_, ?_, ?_, ?_⟩ <;> rintro rfl <;> simp [Char.isDigit] at h

lemma readSign_cons_digit {c : Char} (h : c.isDigit = true) (l : List Char) :
    readSign (c :: l) = (1, c :: l) := by
  obtain ⟨h1, h2, -, -⟩ := digit_ne_special h
  simp [readSign, h1, h2]

lemma dropWhile_spaceC_cons_digit {c : Char} (h : c.isDigit = true) (l : List Char) :
    (c :: l).dropWhile isSpaceC = c :: l := by
  rw [List.dropWhile_cons, digit_not_spaceC h]
  simp

lemma readDigitsAux_append {rest : List Char}
    (hrest : ∀ c tl, rest = c :: tl → c.isDigit = false) :
    ∀ (ds : List Char), (∀ c ∈ ds, c.isDigit = true) → ∀ v k,
      readDigitsAux (ds ++ rest) v k =
        ((readDigitsAux ds v k).1, (readDigitsAux ds v k).2.1, rest) := by
  intro ds
  induction ds with
  | nil =>
    intro _ v k
    cases rest with
    | nil => simp [readDigitsAux]
    | cons c tl => simp [readDigitsAux, hrest c tl rfl]
  | cons c tl ih =>
    intro hds v k
    have hc : c.isDigit = true := hds c (List.mem_cons_self c tl)
    simp only [List.cons_append, readDigitsAux, hc, if_true]
    exact ih (fun x hx => hds x (List.mem_cons_of_mem c hx)) _ _

lemma readDigits_all_digits {ds : List Char} (hds : ∀ c ∈ ds, c.isDigit = true) :
    readDigits ds = ((readDigits ds).1, (readDigits ds).2.1, ([] : List Char)) := by
  have := @readDigitsAux_append [] (by intro c tl h; cases h) ds hds 0 0
  simpa [readDigits] using this

lemma atoi_append {ds rest : List Char} (hne : ds ≠ [])
    (hds : ∀ c ∈ ds, c.isDigit = true)
    (hrest : ∀ c tl, rest = c :: tl → c.isDigit = false) :
    atoi (ds ++ rest) = atoi ds := by
  cases ds with
  | nil => exact absurd rfl hne
  | cons c tl =>
    have hc : c.isDigit = true := hds c (List.mem_cons_self c tl)
    have hall : ∀ x ∈ c :: tl, x.isDigit = true := hds
    simp only [atoi, List.cons_append, dropWhile_spaceC_cons_digit hc,
      readSign_cons_digit hc]
    have h1 := readDigitsAux_append hrest (c :: tl) hall 0 0
    simp only [readDigits, List.cons_append] at h1 ⊢
    rw [h1]

lemma atof_append {ds1 ds2 rest : List Char}
    (h1 : ds1 ≠ []) (hd1 : ∀ c ∈ ds1, c.isDigit = true)
    (hd2 : ∀ c ∈ ds2, c.isDigit = true)
    (hrest : ∀ c tl, rest = c :: tl → c.isDigit = false ∧ c ≠ 'e' ∧ c ≠ 'E') :
    atof (ds1 ++ '.' :: ds2 ++ rest) = atof (ds1 ++ '.' :: ds2) := by
  cases ds1 with
  | nil => exact absurd rfl h1
  | cons c tl =>
    have hc : c.isDigit = true := hd1 c (List.mem_cons_self c tl)
    have hall : ∀ x ∈ c :: tl, x.isDigit = true := hd1
    have hdotrest : ∀ x xtl, ('.' :: ds2 ++ rest) = x :: xtl → x.isDigit = false := by
      intro x xtl hx
      rw [List.cons_append] at hx
      cases hx
      decide
    have hdot : ∀ x xtl, ('.' :: ds2) = x :: xtl → x.isDigit = false := by
      intro x xtl hx
      cases hx
      decide
    have hrest1 : ∀ x xtl, rest = x :: xtl → x.isDigit = false := by
      intro x xtl hx
      exact (hrest x xtl hx).1
    have hInt1 := readDigitsAux_append hdotrest (c :: tl) hall 0 0
    have hInt2 := readDigitsAux_append hdot (c :: tl) hall 0 0
    have hFrac1 := readDigitsAux_append hrest1 ds2 hd2 0 0
    have hFrac2 := @readDigitsAux_append []
      (by intro x xtl hx; cases hx) ds2 hd2 0 0
    have hexp : readExp rest = 0 := by
      cases rest with
      | nil => rfl
      | cons x xtl =>
        obtain ⟨-, hxe, hxE⟩ := hrest x xtl rfl
        simp [readExp, hxe, hxE]
    simp only [atof, List.cons_append, List.append_assoc,
      dropWhile_spaceC_cons_digit hc, readSign_cons_digit hc, readDigits] at hInt1 hInt2 ⊢
    rw [hInt1, hInt2]
    simp only [readFrac, if_pos rfl, readDigits]
    rw [hFrac1]
    have hds2 : readDigitsAux ds2 0 0 =
        ((readDigitsAux ds2 0 0).1, (readDigitsAux ds2 0 0).2.1, ([] : List Char)) := by
      simpa using hFrac2
    rw [hds2]
    simp [hexp, show readExp ([] : List Char) = 0 from rfl]

/-- C1: for every loudness value v, the rendered loudness bar's filled column
count L equals the truncation to integer of (min(max(v, 0.0), 0.4) / 0.4) * 40,
and the bar is printed as L filled characters followed by (40 - L) spaces; in
particular L = 0 when v <= 0, L = 40 when v >= 0.4, and L = 20 when v = 0.2. -/
theorem claim_C1_rms_bar (v : ℚ) :
    rms_bar_length v = truncToInt (min (max v 0) (4/10) / (4/10) * 40) ∧
    barCols (rms_bar_length v) =
      List.replicate (rms_bar_length v).toNat BAR_CHAR ++
        List.replicate (40 - (rms_bar_length v).toNat) ' ' ∧
    (v ≤ 0 → rms_bar_length v = 0) ∧
    (4/10 ≤ v → rms_bar_length v = 40) ∧
    rms_bar_length (2/10) = 20 := by
  obtain ⟨hb0, hb40⟩ := rms_bar_length_bounds v
  refine ⟨?_, barCols_split hb0 hb40, ?_, ?_, ?_⟩
  · unfold rms_bar_length scaled_rms MAX_RMS_FOR_BAR BAR_WIDTH
    norm_num
  · intro h
    unfold rms_bar_length scaled_rms MAX_RMS_FOR_BAR BAR_WIDTH truncToInt
    rw [max_eq_right h, min_eq_left (by norm_num : (0:ℚ) ≤ 2/5)]
    norm_num
  · intro h
    have h0 : (0:ℚ) ≤ v := le_trans (by norm_num) h
    have h25 : (2/5 : ℚ) ≤ v := by linarith
    unfold rms_bar_length scaled_rms MAX_RMS_FOR_BAR BAR_WIDTH truncToInt
    rw [max_eq_left h0, min_eq_right h25]
    norm_num
  · norm_num [rms_bar_length, scaled_rms, truncToInt, MAX_RMS_FOR_BAR, BAR_WIDTH]

theorem claim_C1_rms_bar_witness :
    rms_bar_length (-(1:ℚ)) = 0 ∧ rms_bar_length 1 = 40 :=
  ⟨(claim_C1_rms_bar (-(1:ℚ))).2.2.1 (by norm_num),
   (claim_C1_rms_bar 1).2.2.2.1 (by norm_num)⟩

/-- C2: for every integer pitch value p, the rendered pitch bar's filled column
count P equals the truncation to integer of
((min(max(p, 100), 1000) - 100) / 900) * 40 when p > 0, and P = 0 when p <= 0;
the bar is printed as P filled characters followed by (40 - P) spaces, and the
numeric Hz value printed after the bar is p when p > 0 and 0 otherwise (never
negative); in particular P = 40 when p >= 1000 and P = 20 when p = 550. -/
theorem claim_C2_pitch_bar (p : ℤ) :
    pitch_bar_length p =
      (if 0 < p then
        truncToInt ((min (max (p:ℚ) 100) 1000 - 100) / 900 * 40) else 0) ∧
    barCols (pitch_bar_length p) =
      List.replicate (pitch_bar_length p).toNat BAR_CHAR ++
        List.replicate (40 - (pitch_bar_length p).toNat) ' ' ∧
    printed_pitch p = (if 0 < p then p else 0) ∧
    0 ≤ printed_pitch p ∧
    (p ≤ 0 → pitch_bar_length p = 0 ∧ printed_pitch p = 0) ∧
    (1000 ≤ p → pitch_bar_length p = 40) ∧
    pitch_bar_length 550 = 20 := by
  obtain ⟨hb0, hb40⟩ := pitch_bar_length_bounds p
  refine ⟨?_, barCols_split hb0 hb40, rfl, ?_, ?_, ?_, ?_⟩
  · unfold pitch_bar_length scaled_pitch PITCH_MIN_HZ PITCH_MAX_HZ BAR_WIDTH
    by_cases hp : 0 < p
    · rw [if_pos hp, if_pos hp]
      norm_num
    · rw [if_neg hp, if_neg hp]
      norm_num [truncToInt]
  · unfold printed_pitch
    split <;> omega
  · intro h
    constructor
    · unfold pitch_bar_length scaled_pitch truncToInt
      rw [if_neg (by omega : ¬ 0 < p)]
      norm_num
    · unfold printed_pitch
      rw [if_neg (by omega : ¬ 0 < p)]
  · intro h
    have hp : 0 < p := by omega
    have h100 : (100:ℚ) ≤ (p:ℚ) := by exact_mod_cast (by omega : (100:ℤ) ≤ p)
    have h1000 : (1000:ℚ) ≤ (p:ℚ) := by exact_mod_cast h
    unfold pitch_bar_length scaled_pitch PITCH_MIN_HZ PITCH_MAX_HZ BAR_WIDTH truncToInt
    rw [if_pos hp, max_eq_left (by linarith : (100:ℚ) ≤ (p:ℚ)), min_eq_right h1000]
    norm_num
  · norm_num [pitch_bar_length, scaled_pitch, truncToInt, PITCH_MIN_HZ, PITCH_MAX_HZ,
      BAR_WIDTH]

theorem claim_C2_pitch_bar_witness :
    (pitch_bar_length (-5) = 0 ∧ printed_pitch (-5) = 0) ∧ pitch_bar_length 1200 = 40 :=
  ⟨(claim_C2_pitch_bar (-5)).2.2.2.2.1 (by norm_num),
   (claim_C2_pitch_bar 1200).2.2.2.2.2.1 (by norm_num)⟩

/-- C3: the well-formed payload "0.1,200" parses to loudness 0.1 and pitch 200,
and the payload "0.3" with no comma parses to loudness 0.3 and pitch 0. -/
theorem claim_C3_wellformed_payloads :
    parseDatagram ("0.1,200".toList) = (1/10, 200) ∧
    parseDatagram ("0.3".toList) = (3/10, 0) := by
  constructor <;>
    simp +decide [parseDatagram, cstring, strtokTokens, tokensGo, parseTokens, atof, atoi,
      readFrac, readExp, readDigits, readDigitsAux, readSign, isSpaceC, NUL]

/-- C4: the parser is total - every payload yields some (loudness, pitch) pair
with no error path - and the fully non-numeric payload "abc,xyz" yields the
zero defaults (0.0, 0). -/
theorem claim_C4_parse_never_fails :
    (∀ payload : List Char, ∃ lp : ℚ × ℤ, parseDatagram payload = lp) ∧
    parseDatagram ("abc,xyz".toList) = (0, 0) := by
  constructor
  · intro payload
    exact ⟨parseDatagram payload, rfl⟩
  · simp +decide [parseDatagram, cstring, strtokTokens, tokensGo, parseTokens, atof, atoi,
      readFrac, readExp, readDigits, readDigitsAux, readSign, isSpaceC, NUL]

/-- C5 counterexample: the payload ",200" does NOT parse to loudness 0.0 and
pitch 200 - `strtok` skips the leading comma, so "200" becomes the FIRST
token and is parsed as the loudness, leaving no pitch token. -/
theorem claim_C5_counterexample :
    ¬ parseDatagram (",200".toList) = (0, 200) := by
  have h : parseDatagram (",200".toList) = (200, 0) := by
    simp +decide [parseDatagram, cstring, strtokTokens, tokensGo, parseTokens, atof, atoi,
      readFrac, readExp, readDigits, readDigitsAux, readSign, isSpaceC, NUL]
  rw [h]
  intro hc
  have h2 := congrArg Prod.snd hc
  norm_num at h2

/-- C5 amended: `strtok` skips leading delimiters, so a payload that begins
with the `,` delimiter parses exactly as the payload with that comma removed;
the first nonempty field becomes the loudness, and ",200" therefore yields
loudness 200.0 and pitch 0 (not loudness 0.0 and pitch 200). -/
theorem claim_C5_leading_comma (rest : List Char) :
    parseDatagram (',' :: rest) = parseDatagram rest ∧
    parseDatagram (",200".toList) = (200, 0) := by
  constructor
  · simp +decide [parseDatagram, cstring, strtokTokens, List.takeWhile_cons, NUL, tokensGo]
  · simp +decide [parseDatagram, cstring, strtokTokens, tokensGo, parseTokens, atof, atoi,
      readFrac, readExp, readDigits, readDigitsAux, readSign, isSpaceC, NUL]

/-- C6 counterexample: the payload "0.1,,300" does NOT yield pitch 0 - `strtok`
collapses the consecutive commas, so "300" becomes the second token and the
parsed pitch is 300. -/
theorem claim_C6_counterexample :
    ¬ (parseDatagram ("0.1,,300".toList)).2 = 0 := by
  have h : parseDatagram ("0.1,,300".toList) = (1/10, 300) := by
    simp +decide [parseDatagram, cstring, strtokTokens, tokensGo, parseTokens, atof, atoi,
      readFrac, readExp, readDigits, readDigitsAux, readSign, isSpaceC, NUL]
  rw [h]
  norm_num

/-- C6 amended: tokens beyond the second are indeed never consulted (the parse
of a token list depends only on its first two tokens, and "0.1,200,999" yields
loudness 0.1 and pitch 200), but `strtok` collapses consecutive delimiters, so
in "0.1,,300" the empty second field is skipped and the pitch is 300, not 0. -/
theorem claim_C6_extra_fields (t1 t2 : List Char) (rest : List (List Char)) :
    parseTokens (t1 :: t2 :: rest) = parseTokens [t1, t2] ∧
    parseDatagram ("0.1,200,999".toList) = (1/10, 200) ∧
    parseDatagram ("0.1,,300".toList) = (1/10, 300) := by
  refine ⟨rfl, ?_, ?_⟩ <;>
    simp +decide [parseDatagram, cstring, strtokTokens, tokensGo, parseTokens, atof, atoi,
      readFrac, readExp, readDigits, readDigitsAux, readSign, isSpaceC, NUL]

theorem claim_C6_extra_fields_witness :
    parseTokens (['1'] :: ['2'] :: [['3']]) = parseTokens [['1'], ['2']] :=
  (claim_C6_extra_fields ['1'] ['2'] [['3']]).1

/-- C7: socket-creation failure and bind failure are fatal - the process
reports a diagnostic and exits with the non-zero status EXIT_FAILURE without
entering the receive loop, and on bind failure the created socket is closed
before exiting. -/
theorem claim_C7_fatal_startup (socketOk bindOk : Bool) :
    (socketOk = false →
      mainStartup socketOk bindOk =
        { stderrMsgs := ["socket creation failed"], socketClosed := false,
          enteredLoop := false, exitCode := some EXIT_FAILURE }) ∧
    (socketOk = true → bindOk = false →
      mainStartup socketOk bindOk =
        { stderrMsgs := ["bind failed"], socketClosed := true,
          enteredLoop := false, exitCode := some EXIT_FAILURE }) ∧
    EXIT_FAILURE ≠ 0 := by
  refine ⟨?_, ?_, by norm_num [EXIT_FAILURE]⟩
  · rintro rfl
    rfl
  · rintro rfl rfl
    rfl

theorem claim_C7_fatal_startup_witness :
    mainStartup false true =
      { stderrMsgs := ["socket creation failed"], socketClosed := false,
        enteredLoop := false, exitCode := some EXIT_FAILURE } ∧
    mainStartup true false =
      { stderrMsgs := ["bind failed"], socketClosed := true,
        enteredLoop := false, exitCode := some EXIT_FAILURE } :=
  ⟨(claim_C7_fatal_startup false true).1 rfl,
   (claim_C7_fatal_startup true false).2.1 rfl rfl⟩

/-- C8: a failing receive (n < 0) is logged and the loop continues with no
rendering, and a zero-length receive is skipped silently - no diagnostic, no
render, loop continues. -/
theorem claim_C8_recv_error_handling (n : ℤ) (buf : List Char) :
    (n < 0 →
      loopIteration n buf =
        { stderrMsgs := ["recvfrom error"], rendered := none, continues := true }) ∧
    (n = 0 →
      loopIteration n buf =
        { stderrMsgs := [], rendered := none, continues := true }) := by
  constructor
  · intro h
    unfold loopIteration
    rw [if_neg (by omega : ¬ 0 < n), if_pos h]
  · rintro rfl
    rfl

theorem claim_C8_recv_error_handling_witness :
    loopIteration (-1) [] =
      { stderrMsgs := ["recvfrom error"], rendered := none, continues := true } ∧
    loopIteration 0 [] = { stderrMsgs := [], rendered := none, continues := true } :=
  ⟨(claim_C8_recv_error_handling (-1) []).1 (by norm_num),
   (claim_C8_recv_error_handling 0 []).2 rfl⟩

/-- C9: rendering is deterministic and idempotent - the terminal output of
`render_audio` (clear-screen step excluded) is a function of the Sample alone,
so rendering equal samples twice gives byte-identical output. -/
theorem claim_C9_render_idempotent (v1 v2 : ℚ) (p1 p2 : ℤ)
    (hv : v1 = v2) (hp : p1 = p2) :
    render_audio v1 p1 = render_audio v2 p2 := by
  rw [hv, hp]

theorem claim_C9_render_idempotent_witness :
    render_audio (1/10) 200 = render_audio (1/10) 200 :=
  claim_C9_render_idempotent (1/10) (1/10) 200 200 rfl rfl

/-- C10 (implicit): a token with a valid numeric head followed by trailing
non-numeric characters parses to the value of that head, not to the zero
default: appending a non-digit tail after a digit run does not change `atoi`,
appending a tail that starts with no digit and no exponent marker after a
decimal literal does not change `atof`, and concretely "200abc" gives 200,
"3.7" gives 3 via `atoi`, "0.5xyz" gives 0.5; the zero default applies only
to tokens with no numeric head at all, such as "abc" and "xyz". -/
theorem claim_C10_trailing_garbage
    (ds rest ds1 ds2 rest2 : List Char)
    (hne : ds ≠ []) (hds : ∀ c ∈ ds, c.isDigit = true)
    (hrest : ∀ c tl, rest = c :: tl → c.isDigit = false)
    (hne1 : ds1 ≠ []) (hd1 : ∀ c ∈ ds1, c.isDigit = true)
    (hd2 : ∀ c ∈ ds2, c.isDigit = true)
    (hrest2 : ∀ c tl, rest2 = c :: tl → c.isDigit = false ∧ c ≠ 'e' ∧ c ≠ 'E') :
    atoi (ds ++ rest) = atoi ds ∧
    atof (ds1 ++ '.' :: ds2 ++ rest2) = atof (ds1 ++ '.' :: ds2) ∧
    atoi ("200abc".toList) = 200 ∧
    atoi ("3.7".toList) = 3 ∧
    atof ("0.5xyz".toList) = 1/2 ∧
    atof ("abc".toList) = 0 ∧
    atoi ("xyz".toList) = 0 := by
  refine ⟨atoi_append hne hds hrest, atof_append hne1 hd1 hd2 hrest2, ?_, ?_, ?_, ?_, ?_⟩
  all_goals
    simp +decide [atof, atoi, readFrac, readExp, readDigits, readDigitsAux, readSign,
      isSpaceC]
  all_goals norm_num

theorem claim_C10_trailing_garbage_witness :
    atoi (['2','0','0'] ++ ['a','b','c']) = atoi ['2','0','0'] ∧
    atof (['0'] ++ '.' :: ['5'] ++ ['x','y','z']) = atof (['0'] ++ '.' :: ['5']) :=
  ⟨(claim_C10_trailing_garbage ['2','0','0'] ['a','b','c'] ['0'] ['5'] ['x','y','z']
      (by decide) (by decide)
      (by intro c tl h; injection h with h1 h2; subst h1; decide)
      (by decide) (by decide) (by decide)
      (by intro c tl h; injection h with h1 h2; subst h1; decide)).1,
   (claim_C10_trailing_garbage ['2','0','0'] ['a','b','c'] ['0'] ['5'] ['x','y','z']
      (by decide) (by decide)
      (by intro c tl h; injection h with h1 h2; subst h1; decide)
      (by decide) (by decide) (by decide)
      (by intro c tl h; injection h with h1 h2; subst h1; decide)).2.1⟩

theorem claim_C5_leading_comma_witness :
    parseDatagram (',' :: ['2']) = parseDatagram ['2'] :=
  (claim_C5_leading_comma ['2']).1
